import Mathlib

/-!
Verification of the scene-graph construction and rendering engine
(`src/scene_graph/graph_manager.py`, class `GraphManager`).

The embedding models the JSON scene documents consumed by `build_graph`
as typed records (per `src/schemas/scene_schemas.py`), Python dicts as
insertion-ordered association lists with unique keys, and the networkx
`Graph` object as a record of ordered node and edge lists with the
`add_node` / `add_edge` semantics the code relies on: re-adding a node
merges the new attributes into its attribute dict, and adding an edge
first creates any endpoint that is not yet a node.  Numeric values are
carried as rationals.  `center`, `semantic_context` and the float
rendering of numeric attribute values are never read by the verified
operations and are abstracted away.
-/

/-- An attribute value: the schema allows string or numeric values. -/
inductive AttrValue
  | str (s : String)
  | num (q : Rat)
deriving DecidableEq

/-- Normalized bounding box of a scene object (`bounding_box` in the schema). -/
structure BoundingBox where
  x_min : Rat
  y_min : Rat
  x_max : Rat
  y_max : Rat
deriving DecidableEq

/-- One entry of an object's `relations` array. -/
structure Relation where
  object_id : Int
  object_name : String
  relation_type : String
  relation_description : String
  relation_confidence : Rat
deriving DecidableEq

/-- One entry of the scene's `objects` array.  `attributes` is the object's
attribute dict, an insertion-ordered association list. -/
structure SceneObject where
  id : Int
  name : String
  bounding_box : BoundingBox
  attributes : List (String × AttrValue)
  relations : List Relation
deriving DecidableEq

/-- The scene document passed to `GraphManager.build_graph`. -/
structure Scene where
  objects : List SceneObject
deriving DecidableEq

/-- Python `d.get(k)` on an association-list dict. -/
def dictGet (k : String) : List (String × AttrValue) → Option AttrValue
  | [] => none
  | kv :: rest => if kv.1 = k then some kv.2 else dictGet k rest

/-- Python `d[k] = v`: replace in place if the key exists, else append. -/
def dictSet (k : String) (v : AttrValue) : List (String × AttrValue) → List (String × AttrValue)
  | [] => [(k, v)]
  | kv :: rest => if kv.1 = k then (k, v) :: rest else kv :: dictSet k v rest

/-- Python `d.update(upd)`: set every key of `upd` in order. -/
def updateDict (d upd : List (String × AttrValue)) : List (String × AttrValue) :=
  upd.foldl (fun acc kv => dictSet kv.1 kv.2 acc) d

/-- An edge of the networkx graph: endpoints in insertion order plus the
edge's attribute dict. -/
structure Edge where
  u : Int
  v : Int
  attrs : List (String × AttrValue)
deriving DecidableEq

/-- The networkx `nx.Graph` as used by `GraphManager`: insertion-ordered
node list (id paired with the node's attribute dict) and edge list. -/
structure Graph where
  nodes : List (Int × List (String × AttrValue))
  edges : List Edge
deriving DecidableEq

def Graph.empty : Graph := ⟨[], []⟩

/-- Membership of `i` in the graph's node set. -/
def hasNode (g : Graph) (i : Int) : Bool :=
  g.nodes.any (fun p => p.1 == i)

/-- The graph's node ids in insertion order. -/
def nodeIds (g : Graph) : List Int :=
  g.nodes.map (fun p => p.1)

/-- The attribute dict stored at node `i`, if the node exists. -/
def nodeAttrs (g : Graph) (i : Int) : Option (List (String × AttrValue)) :=
  (g.nodes.find? (fun p => p.1 == i)).map (fun p => p.2)

/-- networkx `Graph.add_node(i, **attrs)`: if `i` is already a node its
attribute dict is updated with `attrs`, otherwise the node is appended. -/
def add_node (g : Graph) (i : Int) (attrs : List (String × AttrValue)) : Graph :=
  if hasNode g i then
    { g with nodes := g.nodes.map (fun p => if p.1 == i then (p.1, updateDict p.2 attrs) else p) }
  else
    { g with nodes := g.nodes ++ [(i, attrs)] }

/-- networkx: an endpoint passed to `add_edge` that is not yet a node is
added with an empty attribute dict. -/
def ensureNode (g : Graph) (i : Int) : Graph :=
  if hasNode g i then g else { g with nodes := g.nodes ++ [(i, [])] }

/-- Whether an edge of the undirected graph joins `u` and `v`. -/
def edgeMatch (u v : Int) (e : Edge) : Bool :=
  (e.u == u && e.v == v) || (e.u == v && e.v == u)

/-- The attribute dict of the edge joining `u` and `v`, if present. -/
def edgeLookup (g : Graph) (u v : Int) : Option (List (String × AttrValue)) :=
  (g.edges.find? (edgeMatch u v)).map (fun e => e.attrs)

/-- networkx `Graph.add_edge(u, v, **attrs)`: missing endpoints are created
as attribute-less nodes; an existing `(u, v)` edge has its attribute dict
updated, otherwise a new edge is appended. -/
def add_edge (g : Graph) (u v : Int) (attrs : List (String × AttrValue)) : Graph :=
  let g1 := ensureNode (ensureNode g u) v
  if g1.edges.any (edgeMatch u v) then
    { g1 with edges := g1.edges.map (fun e =>
        if edgeMatch u v e then { e with attrs := updateDict e.attrs attrs } else e) }
  else
    { g1 with edges := g1.edges ++ [⟨u, v, attrs⟩] }

/-- `GraphManager.add_object` (graph_manager.py lines 46-58).  The Python
code aliases the object's own `attributes` dict and calls
`update({'name': obj['name']})` on it before `add_node`, so the object is
returned with its attribute dict mutated: the pair models `(self.graph,
obj)` after the call. -/
def GraphManager.add_object (g : Graph) (obj : SceneObject) : Graph × SceneObject :=
  let node_attributes := dictSet "name" (AttrValue.str obj.name) obj.attributes
  (add_node g obj.id node_attributes, { obj with attributes := node_attributes })

/-- `GraphManager.add_relation` (graph_manager.py lines 60-71). -/
def GraphManager.add_relation (g : Graph) (source_id : Int) (relation : Relation) : Graph :=
  add_edge g source_id relation.object_id
    [("relation_type", AttrValue.str relation.relation_type),
     ("description", AttrValue.str relation.relation_description)]

/-- One iteration of the loop in `GraphManager.build_graph`: add the object
as a node, then add each of its relations as an edge. -/
def GraphManager.build_step (acc : Graph × List SceneObject) (obj : SceneObject) :
    Graph × List SceneObject :=
  let r := GraphManager.add_object acc.1 obj
  (obj.relations.foldl (fun g rel => GraphManager.add_relation g obj.id rel) r.1,
   acc.2 ++ [r.2])

/-- `GraphManager.build_graph` (graph_manager.py lines 29-44), starting from
the empty graph created in `__init__`.  The second component is the scene
as it stands after the build (its objects' attribute dicts are mutated by
`add_object`, see above). -/
def GraphManager.build_graph (data : Scene) : Graph × Scene :=
  let r := data.objects.foldl GraphManager.build_step (Graph.empty, [])
  (r.1, ⟨r.2⟩)

/-- `GraphManager.find_objects_by_attribute` (graph_manager.py lines 73-84):
`attributes.get(attribute) == value` over `self.graph.nodes(data=True)`. -/
def GraphManager.find_objects_by_attribute (g : Graph) (attr : String) (value : AttrValue) :
    List Int :=
  (g.nodes.filter (fun p => dictGet attr p.2 == some value)).map (fun p => p.1)

/-- How an attribute value is rendered into label text.  String values render
as themselves (all verified properties only use string values); the float
rendering of numeric values is abstract. -/
def attrDisplay : AttrValue → String
  | .str s => s
  | .num q => toString q.num ++ "/" ++ toString q.den

/-- Python `"<br>".join(parts)`. -/
def joinBr : List String → String
  | [] => ""
  | [s] => s
  | s :: rest => s ++ "<br>" ++ joinBr rest

/-- The hover string computed inside the loop of `create_node_trace`:
`f"object: {data['name']}<br>" + "<br>".join(f"{key}: {value}" ...)`. -/
def hoverTextOf (attrs : List (String × AttrValue)) (nameVal : AttrValue) : String :=
  "object: " ++ attrDisplay nameVal ++ "<br>" ++
    joinBr ((attrs.filter (fun kv => kv.1 != "name")).map
      (fun kv => kv.1 ++ ": " ++ attrDisplay kv.2))

/-- The Plotly scatter trace built by `create_node_trace`: per-node x, y and
marker-text lists, but a single `hovertext` string (the Python variable
`hover_text` is a plain string reassigned on every loop iteration). -/
structure NodeTrace where
  node_x : List Rat
  node_y : List Rat
  text : List String
  hovertext : String
deriving DecidableEq

/-- One iteration of the node loop in `create_node_trace`: fails (KeyError)
when the node has no `name` attribute; otherwise appends to the coordinate
and text lists and reassigns the single hover string. -/
def nodeTraceStep (position : Int → Rat × Rat)
    (acc : List Rat × List Rat × List String × Option String)
    (p : Int × List (String × AttrValue)) :
    Option (List Rat × List Rat × List String × Option String) :=
  match dictGet "name" p.2 with
  | none => none
  | some nv =>
      some (acc.1 ++ [(position p.1).1], acc.2.1 ++ [(position p.1).2],
            acc.2.2.1 ++ [attrDisplay nv], some (hoverTextOf p.2 nv))

/-- `GraphManager.create_node_trace` (graph_manager.py lines 143-185).
`none` models the run failing with an exception: a KeyError on a node
without a `name` attribute, or the NameError on `hover_text` when the
graph has no nodes at all. -/
def GraphManager.create_node_trace (g : Graph) (position : Int → Rat × Rat) :
    Option NodeTrace := do
  let r ← g.nodes.foldlM (nodeTraceStep position) ([], [], [], none)
  let h ← r.2.2.2
  return ⟨r.1, r.2.1, r.2.2.1, h⟩

/-- The rectangle drawn for one object by `draw_graph_on_image`
(graph_manager.py lines 201-209): corner `(x_min*width, y_min*height)`,
extent `((x_max-x_min)*width, (y_max-y_min)*height)`. -/
structure OverlayRect where
  x : Rat
  y : Rat
  w : Rat
  h : Rat
deriving DecidableEq

def overlayRect (bbox : BoundingBox) (width height : Rat) : OverlayRect :=
  ⟨bbox.x_min * width, bbox.y_min * height,
   (bbox.x_max - bbox.x_min) * width, (bbox.y_max - bbox.y_min) * height⟩

/-- The rectangles emitted by the bounding-box loop of `draw_graph_on_image`,
one per scene object in order. -/
def overlayRects (data : Scene) (width height : Rat) : List OverlayRect :=
  data.objects.map (fun obj => overlayRect obj.bounding_box width height)

/-- The mutation `draw_graph_on_image` performs on `self.graph`
(graph_manager.py lines 217-222, the "Building the graph" loop): every
object's node re-added with its `name`, every relation re-added as an edge
carrying a `label` attribute. -/
def drawGraphUpdate (g : Graph) (data : Scene) : Graph :=
  data.objects.foldl (fun g obj =>
    obj.relations.foldl
      (fun g rel => add_edge g obj.id rel.object_id [("label", AttrValue.str rel.relation_type)])
      (add_node g obj.id [("name", AttrValue.str obj.name)])) g

/-! Concrete scenes used to instantiate the claims' scenarios. -/

/-- A unit bounding box for scenes where only graph structure matters. -/
def bbox0 : BoundingBox := ⟨0, 0, 1, 1⟩

def cupObj : SceneObject :=
  ⟨1, "cup", bbox0, [("color", AttrValue.str "red")], []⟩

def tableObj : SceneObject :=
  ⟨2, "table", bbox0, [("color", AttrValue.str "brown")], []⟩

def relOnTopOf : Relation := ⟨2, "table", "on top of", "the cup is on the table", 1⟩

def relToGhost : Relation := ⟨99, "ghost", "next to", "the table is next to a ghost", 1⟩

/-- Two objects, no relations. -/
def sceneCT : Scene := ⟨[cupObj, tableObj]⟩

/-- Two objects, one relation `1 → 2` typed "on top of". -/
def sceneCT2 : Scene := ⟨[{ cupObj with relations := [relOnTopOf] }, tableObj]⟩

/-- Two objects, one relation referencing the nonexistent object id `99`. -/
def scene99 : Scene := ⟨[cupObj, { tableObj with relations := [relToGhost] }]⟩

/-- Two objects sharing the id `1`. -/
def sceneDup : Scene := ⟨[cupObj, { tableObj with id := 1 }]⟩

/-! Dict lemmas. -/

theorem updateDict_singleton (d : List (String × AttrValue)) (k : String) (v : AttrValue) :
    updateDict d [(k, v)] = dictSet k v d := rfl

theorem dictGet_dictSet_self (d : List (String × AttrValue)) (k : String) (v : AttrValue) :
    dictGet k (dictSet k v d) = some v := by
  induction d with
  | nil => simp [dictSet, dictGet]
  | cons kv rest ih =>
      by_cases h : kv.1 = k <;> simp [dictSet, dictGet, h, ih]

/-! Node-level graph lemmas. -/

theorem edges_add_node (g : Graph) (i : Int) (a : List (String × AttrValue)) :
    (add_node g i a).edges = g.edges := by
  unfold add_node
  split <;> rfl

theorem edges_ensureNode (g : Graph) (i : Int) :
    (ensureNode g i).edges = g.edges := by
  unfold ensureNode
  split <;> rfl

theorem nodeIds_add_node (g : Graph) (i : Int) (a : List (String × AttrValue)) :
    nodeIds (add_node g i a) = if hasNode g i then nodeIds g else nodeIds g ++ [i] := by
  unfold add_node nodeIds
  split
  · simp only [List.map_map, if_true]
    refine List.map_congr_left ?_
    intro p _
    simp only [Function.comp]
    split <;> rfl
  · simp

theorem nodeIds_ensureNode (g : Graph) (i : Int) :
    nodeIds (ensureNode g i) = if hasNode g i then nodeIds g else nodeIds g ++ [i] := by
  unfold ensureNode nodeIds
  split <;> simp

theorem hasNode_iff (g : Graph) (i : Int) :
    hasNode g i = true ↔ i ∈ nodeIds g := by
  simp [hasNode, nodeIds, List.any_eq_true, List.mem_map]

theorem hasNode_add_node_mono (g : Graph) (i j : Int) (a : List (String × AttrValue))
    (h : hasNode g j = true) : hasNode (add_node g i a) j = true := by
  rw [hasNode_iff] at h ⊢
  rw [nodeIds_add_node]
  split
  · exact h
  · exact List.mem_append_left _ h

theorem hasNode_ensureNode_mono (g : Graph) (i j : Int)
    (h : hasNode g j = true) : hasNode (ensureNode g i) j = true := by
  rw [hasNode_iff] at h ⊢
  rw [nodeIds_ensureNode]
  split
  · exact h
  · exact List.mem_append_left _ h

theorem hasNode_ensureNode_self (g : Graph) (i : Int) :
    hasNode (ensureNode g i) i = true := by
  by_cases h : hasNode g i
  · simp [ensureNode, h]
  · rw [hasNode_iff, nodeIds_ensureNode]
    simp [h]

/-! nodeAttrs lemmas: what each primitive does to the attribute dict of a
fixed node `t`. -/

theorem nodeAttrs_add_node_ne (g : Graph) (i t : Int) (a : List (String × AttrValue))
    (h : i ≠ t) : nodeAttrs (add_node g i a) t = nodeAttrs g t := by
  unfold add_node nodeAttrs
  split
  · simp only [List.find?_map]
    have hp : ((fun p : Int × List (String × AttrValue) => p.1 == t) ∘
        (fun p : Int × List (String × AttrValue) =>
          if p.1 == i then (p.1, updateDict p.2 a) else p)) =
        fun p : Int × List (String × AttrValue) => p.1 == t := by
      funext p
      simp only [Function.comp]
      split <;> rfl
    rw [hp]
    cases hf : g.nodes.find? (fun p => p.1 == t) with
    | none => rfl
    | some p =>
        have hpt : p.1 = t := by
          have := List.find?_some hf
          simpa using this
        simp [Option.map_map, Function.comp, hpt, h.symm]
  · rw [List.find?_append]
    have hbeq : (i == t) = false := by simpa using h
    have : List.find? (fun p : Int × List (String × AttrValue) => p.1 == t) [(i, a)] = none := by
      simp [List.find?, hbeq]
    rw [this]
    simp

theorem nodeAttrs_ensureNode_ne (g : Graph) (i t : Int)
    (h : i ≠ t) : nodeAttrs (ensureNode g i) t = nodeAttrs g t := by
  unfold ensureNode nodeAttrs
  split
  · rfl
  · rw [List.find?_append]
    have hbeq : (i == t) = false := by simpa using h
    have : List.find? (fun p : Int × List (String × AttrValue) => p.1 == t) [(i, [])] = none := by
      simp [List.find?, hbeq]
    rw [this]
    simp

theorem nodeAttrs_ensureNode_new (g : Graph) (t : Int)
    (h : hasNode g t = false) : nodeAttrs (ensureNode g t) t = some [] := by
  unfold ensureNode nodeAttrs
  rw [if_neg (by simp [h])]
  have hnone : List.find? (fun p : Int × List (String × AttrValue) => p.1 == t) g.nodes = none := by
    rw [List.find?_eq_none]
    intro p hp hpt
    have hgt : hasNode g t = true := by
      unfold hasNode
      rw [List.any_eq_true]
      exact ⟨p, hp, hpt⟩
    rw [h] at hgt
    exact Bool.false_ne_true hgt
  simp [List.find?_append, hnone, List.find?]

theorem nodeAttrs_isSome_of_hasNode (g : Graph) (t : Int)
    (h : hasNode g t = true) : (nodeAttrs g t).isSome = true := by
  unfold nodeAttrs
  cases hf : g.nodes.find? (fun p => p.1 == t) with
  | none =>
      exfalso
      rw [List.find?_eq_none] at hf
      unfold hasNode at h
      rw [List.any_eq_true] at h
      obtain ⟨p, hp, hpt⟩ := h
      exact hf p hp hpt
  | some q => rfl

/-! Edge-level lemmas. -/

theorem nodes_add_edge (g : Graph) (u v : Int) (a : List (String × AttrValue)) :
    (add_edge g u v a).nodes = (ensureNode (ensureNode g u) v).nodes := by
  by_cases h : (ensureNode (ensureNode g u) v).edges.any (edgeMatch u v) <;>
    simp [add_edge, h]

theorem nodeAttrs_add_edge (g : Graph) (u v t : Int) (a : List (String × AttrValue)) :
    nodeAttrs (add_edge g u v a) t = nodeAttrs (ensureNode (ensureNode g u) v) t := by
  unfold nodeAttrs
  rw [nodes_add_edge]

theorem hasNode_add_edge_mono (g : Graph) (u v j : Int) (a : List (String × AttrValue))
    (h : hasNode g j = true) : hasNode (add_edge g u v a) j = true := by
  have h2 := hasNode_ensureNode_mono (ensureNode g u) v j (hasNode_ensureNode_mono g u j h)
  simpa [hasNode, nodes_add_edge] using h2

theorem hasNode_add_edge_left (g : Graph) (u v : Int) (a : List (String × AttrValue)) :
    hasNode (add_edge g u v a) u = true := by
  have h2 := hasNode_ensureNode_mono (ensureNode g u) v u (hasNode_ensureNode_self g u)
  simpa [hasNode, nodes_add_edge] using h2

theorem hasNode_add_edge_right (g : Graph) (u v : Int) (a : List (String × AttrValue)) :
    hasNode (add_edge g u v a) v = true := by
  have h2 := hasNode_ensureNode_self (ensureNode g u) v
  simpa [hasNode, nodes_add_edge] using h2

/-! Nodup of the node ids is preserved by every primitive. -/

theorem nodup_add_node (g : Graph) (i : Int) (a : List (String × AttrValue))
    (h : (nodeIds g).Nodup) : (nodeIds (add_node g i a)).Nodup := by
  rw [nodeIds_add_node]
  split
  · exact h
  · next hn =>
      rw [List.nodup_append]
      refine ⟨h, List.nodup_singleton i, ?_⟩
      intro x hx hx1
      rw [List.mem_singleton] at hx1
      subst hx1
      exact hn ((hasNode_iff g x).mpr hx)

theorem nodup_ensureNode (g : Graph) (i : Int)
    (h : (nodeIds g).Nodup) : (nodeIds (ensureNode g i)).Nodup := by
  rw [nodeIds_ensureNode]
  split
  · exact h
  · next hn =>
      rw [List.nodup_append]
      refine ⟨h, List.nodup_singleton i, ?_⟩
      intro x hx hx1
      rw [List.mem_singleton] at hx1
      subst hx1
      exact hn ((hasNode_iff g x).mpr hx)

theorem nodeIds_add_edge (g : Graph) (u v : Int) (a : List (String × AttrValue)) :
    nodeIds (add_edge g u v a) = nodeIds (ensureNode (ensureNode g u) v) := by
  unfold nodeIds
  rw [nodes_add_edge]

theorem nodup_add_edge (g : Graph) (u v : Int) (a : List (String × AttrValue))
    (h : (nodeIds g).Nodup) : (nodeIds (add_edge g u v a)).Nodup := by
  rw [nodeIds_add_edge]
  exact nodup_ensureNode _ v (nodup_ensureNode g u h)

/-! Every edge's endpoints are nodes; preserved by every primitive. -/

def EdgesClosed (g : Graph) : Prop :=
  ∀ e ∈ g.edges, hasNode g e.u = true ∧ hasNode g e.v = true

theorem edgesClosed_add_node (g : Graph) (i : Int) (a : List (String × AttrValue))
    (h : EdgesClosed g) : EdgesClosed (add_node g i a) := by
  intro e he
  rw [edges_add_node] at he
  obtain ⟨hu, hv⟩ := h e he
  exact ⟨hasNode_add_node_mono g i e.u a hu, hasNode_add_node_mono g i e.v a hv⟩

theorem edgesClosed_ensureNode (g : Graph) (i : Int)
    (h : EdgesClosed g) : EdgesClosed (ensureNode g i) := by
  intro e he
  rw [edges_ensureNode] at he
  obtain ⟨hu, hv⟩ := h e he
  exact ⟨hasNode_ensureNode_mono g i e.u hu, hasNode_ensureNode_mono g i e.v hv⟩

theorem edgesClosed_add_edge (g : Graph) (u v : Int) (a : List (String × AttrValue))
    (h : EdgesClosed g) : EdgesClosed (add_edge g u v a) := by
  have h2 : EdgesClosed (ensureNode (ensureNode g u) v) :=
    edgesClosed_ensureNode _ v (edgesClosed_ensureNode g u h)
  have hn : ∀ j, hasNode (add_edge g u v a) j = hasNode (ensureNode (ensureNode g u) v) j := by
    intro j
    unfold hasNode
    rw [nodes_add_edge]
  intro e he
  rw [hn e.u, hn e.v]
  by_cases hc : (ensureNode (ensureNode g u) v).edges.any (edgeMatch u v) = true
  · rw [show (add_edge g u v a).edges = (ensureNode (ensureNode g u) v).edges.map
        (fun e => if edgeMatch u v e then { e with attrs := updateDict e.attrs a } else e) from
      by simp [add_edge, hc]] at he
    rw [List.mem_map] at he
    obtain ⟨e0, he0, rfl⟩ := he
    obtain ⟨hu0, hv0⟩ := h2 e0 he0
    by_cases hm : edgeMatch u v e0 = true <;> simp [hm] <;> exact ⟨hu0, hv0⟩
  · rw [show (add_edge g u v a).edges = (ensureNode (ensureNode g u) v).edges ++ [⟨u, v, a⟩] from
      by simp [add_edge, hc]] at he
    rw [List.mem_append] at he
    rcases he with he | he
    · exact h2 e he
    · rw [List.mem_singleton] at he
      subst he
      refine ⟨?_, hasNode_ensureNode_self (ensureNode g u) v⟩
      exact hasNode_ensureNode_mono (ensureNode g u) v u (hasNode_ensureNode_self g u)

/-! A node id the scene never declares keeps an empty attribute dict. -/

def UntouchedOk (t : Int) (g : Graph) : Prop :=
  nodeAttrs g t = none ∨ nodeAttrs g t = some []

theorem untouchedOk_add_node (g : Graph) (i t : Int) (a : List (String × AttrValue))
    (hne : i ≠ t) (h : UntouchedOk t g) : UntouchedOk t (add_node g i a) := by
  unfold UntouchedOk at h ⊢
  rw [nodeAttrs_add_node_ne g i t a hne]
  exact h

theorem untouchedOk_ensureNode (g : Graph) (i t : Int)
    (h : UntouchedOk t g) : UntouchedOk t (ensureNode g i) := by
  by_cases hit : i = t
  · subst hit
    by_cases hh : hasNode g i = true
    · rw [show ensureNode g i = g from by simp [ensureNode, hh]]
      exact h
    · exact Or.inr (nodeAttrs_ensureNode_new g i (by simpa using hh))
  · unfold UntouchedOk at h ⊢
    rw [nodeAttrs_ensureNode_ne g i t hit]
    exact h

theorem untouchedOk_add_edge (g : Graph) (u v t : Int) (a : List (String × AttrValue))
    (h : UntouchedOk t g) : UntouchedOk t (add_edge g u v a) := by
  have h2 := untouchedOk_ensureNode (ensureNode g u) v t (untouchedOk_ensureNode g u t h)
  unfold UntouchedOk at h2 ⊢
  rw [nodeAttrs_add_edge]
  exact h2

/-! The build loop, projected to its graph and scene components. -/

/-- The effect of one `build_graph` loop iteration on `self.graph` alone. -/
def gstep (g : Graph) (obj : SceneObject) : Graph :=
  obj.relations.foldl (fun g2 rel => GraphManager.add_relation g2 obj.id rel)
    (GraphManager.add_object g obj).1

/-- The mutation `add_object` leaves behind on a scene object. -/
def objMut (o : SceneObject) : SceneObject :=
  { o with attributes := dictSet "name" (AttrValue.str o.name) o.attributes }

theorem build_step_eq (acc : Graph × List SceneObject) (obj : SceneObject) :
    GraphManager.build_step acc obj = (gstep acc.1 obj, acc.2 ++ [objMut obj]) := rfl

theorem build_foldl_fst (objs : List SceneObject) :
    ∀ (g : Graph) (l : List SceneObject),
      (objs.foldl GraphManager.build_step (g, l)).1 = objs.foldl gstep g := by
  induction objs with
  | nil =>
      intro g l
      rfl
  | cons o os ih =>
      intro g l
      simp only [List.foldl_cons, build_step_eq]
      exact ih _ _

theorem build_foldl_snd (objs : List SceneObject) :
    ∀ (g : Graph) (l : List SceneObject),
      (objs.foldl GraphManager.build_step (g, l)).2 = l ++ objs.map objMut := by
  induction objs with
  | nil =>
      intro g l
      simp
  | cons o os ih =>
      intro g l
      simp only [List.foldl_cons, build_step_eq, List.map_cons]
      rw [ih]
      simp

theorem build_graph_fst (data : Scene) :
    (GraphManager.build_graph data).1 = data.objects.foldl gstep Graph.empty :=
  build_foldl_fst data.objects Graph.empty []

/-! Generic fold-invariant lemmas. -/

theorem foldl_preserve {α β : Type} {P : α → Prop} {f : α → β → α}
    (hf : ∀ a b, P a → P (f a b)) :
    ∀ (l : List β) (a : α), P a → P (l.foldl f a) := by
  intro l
  induction l with
  | nil =>
      intro a ha
      exact ha
  | cons x xs ih =>
      intro a ha
      exact ih _ (hf a x ha)

theorem foldl_preserve_mem {α β : Type} {P : α → Prop} {f : α → β → α} :
    ∀ (l : List β), (∀ a b, b ∈ l → P a → P (f a b)) → ∀ a, P a → P (l.foldl f a) := by
  intro l
  induction l with
  | nil =>
      intro _ a ha
      exact ha
  | cons x xs ih =>
      intro hf a ha
      exact ih (fun a b hb => hf a b (List.mem_cons_of_mem x hb)) _
        (hf a x (List.mem_cons_self x xs) ha)

/-! The invariants hold across one whole `build_step` iteration. -/

theorem gstep_nodup (g : Graph) (obj : SceneObject)
    (h : (nodeIds g).Nodup) : (nodeIds (gstep g obj)).Nodup := by
  unfold gstep
  refine foldl_preserve (P := fun g2 => (nodeIds g2).Nodup) ?_ obj.relations _ ?_
  · intro g2 rel hg2
    exact nodup_add_edge g2 obj.id rel.object_id _ hg2
  · exact nodup_add_node g obj.id _ h

theorem gstep_edgesClosed (g : Graph) (obj : SceneObject)
    (h : EdgesClosed g) : EdgesClosed (gstep g obj) := by
  unfold gstep
  refine foldl_preserve ?_ obj.relations _ ?_
  · intro g2 rel hg2
    exact edgesClosed_add_edge g2 obj.id rel.object_id _ hg2
  · exact edgesClosed_add_node g obj.id _ h

theorem gstep_untouchedOk (g : Graph) (obj : SceneObject) (t : Int)
    (hne : obj.id ≠ t) (h : UntouchedOk t g) : UntouchedOk t (gstep g obj) := by
  unfold gstep
  refine foldl_preserve ?_ obj.relations _ ?_
  · intro g2 rel hg2
    exact untouchedOk_add_edge g2 obj.id rel.object_id t _ hg2
  · exact untouchedOk_add_node g obj.id t _ hne h

theorem gstep_hasNode_mono (g : Graph) (obj : SceneObject) (j : Int)
    (h : hasNode g j = true) : hasNode (gstep g obj) j = true := by
  unfold gstep
  refine foldl_preserve (P := fun g2 => hasNode g2 j = true) ?_ obj.relations _ ?_
  · intro g2 rel hg2
    exact hasNode_add_edge_mono g2 obj.id rel.object_id j _ hg2
  · exact hasNode_add_node_mono g obj.id j _ h

theorem build_graph_dangling_general (data : Scene) (t : Int)
    (hrel : ∃ obj ∈ data.objects, ∃ r ∈ obj.relations, r.object_id = t)
    (hid : ∀ obj ∈ data.objects, obj.id ≠ t) :
    nodeAttrs (GraphManager.build_graph data).1 t = some [] := by
  rw [build_graph_fst]
  obtain ⟨obj, hobj, r, hr, hrt⟩ := hrel
  obtain ⟨l1, l2, hsplit⟩ := List.append_of_mem hobj
  rw [hsplit, List.foldl_append, List.foldl_cons]
  have hok0 : UntouchedOk t (List.foldl gstep Graph.empty l1) := by
    refine foldl_preserve_mem l1 ?_ Graph.empty (Or.inl rfl)
    intro g o ho hg
    exact gstep_untouchedOk g o t (hid o (by rw [hsplit]; exact List.mem_append_left _ ho)) hg
  have hokObj : UntouchedOk t (gstep (List.foldl gstep Graph.empty l1) obj) :=
    gstep_untouchedOk _ obj t (hid obj hobj) hok0
  have hnodeObj : hasNode (gstep (List.foldl gstep Graph.empty l1) obj) t = true := by
    unfold gstep
    obtain ⟨r1, r2, hrsplit⟩ := List.append_of_mem hr
    rw [hrsplit, List.foldl_append, List.foldl_cons]
    refine foldl_preserve (P := fun g2 => hasNode g2 t = true) ?_ r2 _ ?_
    · intro g2 rel hg2
      exact hasNode_add_edge_mono g2 obj.id rel.object_id t _ hg2
    · unfold GraphManager.add_relation
      rw [hrt]
      exact hasNode_add_edge_right _ obj.id t _
  have hok2 : UntouchedOk t
      (List.foldl gstep (gstep (List.foldl gstep Graph.empty l1) obj) l2) := by
    refine foldl_preserve_mem l2 ?_ _ hokObj
    intro g o ho hg
    refine gstep_untouchedOk g o t (hid o ?_) hg
    rw [hsplit]
    exact List.mem_append_right _ (List.mem_cons_of_mem obj ho)
  have hnode2 : hasNode
      (List.foldl gstep (gstep (List.foldl gstep Graph.empty l1) obj) l2) t = true := by
    refine foldl_preserve (P := fun g2 => hasNode g2 t = true) ?_ l2 _ hnodeObj
    intro g2 o hg2
    exact gstep_hasNode_mono g2 o t hg2
  rcases hok2 with h | h
  · exfalso
    have hs := nodeAttrs_isSome_of_hasNode _ t hnode2
    rw [h] at hs
    simp at hs
  · exact h

/-! `draw_graph_on_image` stamps a `label` attribute onto relation edges. -/

/-- The edge joining `u` and `v` exists and carries a `label` attribute. -/
def HasLabel (g : Graph) (u v : Int) : Prop :=
  ∃ d x, edgeLookup g u v = some d ∧ dictGet "label" d = some x

theorem edges_add_edge (g : Graph) (u v : Int) (a : List (String × AttrValue)) :
    (add_edge g u v a).edges =
      if g.edges.any (edgeMatch u v) then
        g.edges.map (fun e => if edgeMatch u v e then { e with attrs := updateDict e.attrs a } else e)
      else g.edges ++ [⟨u, v, a⟩] := by
  by_cases h : g.edges.any (edgeMatch u v) = true <;>
    simp [add_edge, edges_ensureNode, h]

theorem find?_edges_update (u v a b : Int) (x : AttrValue) (l : List Edge) :
    List.find? (edgeMatch u v) (l.map (fun e =>
        if edgeMatch a b e then { e with attrs := updateDict e.attrs [("label", x)] } else e)) =
    (List.find? (edgeMatch u v) l).map (fun e =>
        if edgeMatch a b e then { e with attrs := updateDict e.attrs [("label", x)] } else e) := by
  rw [List.find?_map]
  have hp : (edgeMatch u v ∘ (fun e =>
      if edgeMatch a b e then { e with attrs := updateDict e.attrs [("label", x)] } else e)) =
      edgeMatch u v := by
    funext e
    simp only [Function.comp]
    split <;> rfl
  rw [hp]

theorem hasLabel_add_node (g : Graph) (i : Int) (a : List (String × AttrValue)) (u v : Int)
    (h : HasLabel g u v) : HasLabel (add_node g i a) u v := by
  unfold HasLabel edgeLookup at h ⊢
  rw [edges_add_node]
  exact h

theorem hasLabel_add_edge_label (g : Graph) (a b u v : Int) (x : AttrValue)
    (h : HasLabel g u v) : HasLabel (add_edge g a b [("label", x)]) u v := by
  obtain ⟨d, t, hlook, hget⟩ := h
  unfold edgeLookup at hlook
  cases hf : List.find? (edgeMatch u v) g.edges with
  | none =>
      rw [hf] at hlook
      simp at hlook
  | some e0 =>
      rw [hf] at hlook
      simp at hlook
      unfold HasLabel edgeLookup
      rw [edges_add_edge]
      split
      · rw [find?_edges_update, hf]
        by_cases hm : edgeMatch a b e0 = true
        · refine ⟨dictSet "label" x e0.attrs, x, ?_, dictGet_dictSet_self _ _ _⟩
          simp [hm, updateDict]
        · refine ⟨d, t, ?_, hget⟩
          simp [hm, hlook]
      · rw [List.find?_append, hf]
        exact ⟨d, t, by simp [hlook], hget⟩

theorem hasLabel_add_edge_self (g : Graph) (u v : Int) (x : AttrValue) :
    HasLabel (add_edge g u v [("label", x)]) u v := by
  unfold HasLabel edgeLookup
  rw [edges_add_edge]
  split
  · next hc =>
      have hsome : (List.find? (edgeMatch u v) g.edges).isSome = true := by
        rw [List.find?_isSome]
        rw [List.any_eq_true] at hc
        exact hc
      cases hf : List.find? (edgeMatch u v) g.edges with
      | none =>
          rw [hf] at hsome
          simp at hsome
      | some e0 =>
          have hm : edgeMatch u v e0 = true := List.find?_some hf
          rw [find?_edges_update, hf]
          refine ⟨dictSet "label" x e0.attrs, x, ?_, dictGet_dictSet_self _ _ _⟩
          simp [hm, updateDict]
  · next hc =>
      have hnone : List.find? (edgeMatch u v) g.edges = none := by
        rw [List.find?_eq_none]
        intro e he hme
        rw [List.any_eq_true] at hc
        exact absurd ⟨e, he, hme⟩ hc
      rw [List.find?_append, hnone]
      refine ⟨[("label", x)], x, ?_, rfl⟩
      simp [List.find?, edgeMatch]

/-- The effect of one object's iteration of the graph-building loop inside
`draw_graph_on_image`. -/
def dstep (g : Graph) (obj : SceneObject) : Graph :=
  obj.relations.foldl
    (fun g2 rel => add_edge g2 obj.id rel.object_id [("label", AttrValue.str rel.relation_type)])
    (add_node g obj.id [("name", AttrValue.str obj.name)])

theorem drawGraphUpdate_eq (g : Graph) (data : Scene) :
    drawGraphUpdate g data = data.objects.foldl dstep g := rfl

theorem hasLabel_dstep (g : Graph) (obj : SceneObject) (u v : Int)
    (h : HasLabel g u v) : HasLabel (dstep g obj) u v := by
  unfold dstep
  refine foldl_preserve (P := fun g2 => HasLabel g2 u v) ?_ obj.relations _ ?_
  · intro g2 rel hg2
    exact hasLabel_add_edge_label g2 obj.id rel.object_id u v _ hg2
  · exact hasLabel_add_node g obj.id _ u v h

/-! Build-level invariants. -/

theorem build_graph_nodup (data : Scene) :
    (nodeIds (GraphManager.build_graph data).1).Nodup := by
  rw [build_graph_fst]
  refine foldl_preserve (P := fun g => (nodeIds g).Nodup) ?_ data.objects Graph.empty ?_
  · intro g o hg
    exact gstep_nodup g o hg
  · exact List.nodup_nil

theorem build_graph_edgesClosed (data : Scene) :
    EdgesClosed (GraphManager.build_graph data).1 := by
  rw [build_graph_fst]
  refine foldl_preserve (P := EdgesClosed) ?_ data.objects Graph.empty ?_
  · intro g o hg
    exact gstep_edgesClosed g o hg
  · intro e he
    exact absurd he (List.not_mem_nil e)

theorem hasNode_of_nodeAttrs (g : Graph) (t : Int) (d : List (String × AttrValue))
    (h : nodeAttrs g t = some d) : hasNode g t = true := by
  unfold nodeAttrs at h
  cases hf : g.nodes.find? (fun p => p.1 == t) with
  | none =>
      rw [hf] at h
      simp at h
  | some p =>
      have hp := List.find?_some hf
      unfold hasNode
      rw [List.any_eq_true]
      exact ⟨p, List.mem_of_find?_eq_some hf, hp⟩

/-! The claims. -/

/-- C1 (counterexample): the claim says a relation referencing the
nonexistent object id `99` in a 2-object scene makes `build_graph` fail
with `DanglingReferenceError` and return no graph.  In fact the build
completes and returns a graph: it has three nodes, the dangling id `99`
among them. -/
theorem build_graph_dangling_returns_graph :
    99 ∈ nodeIds (GraphManager.build_graph scene99).1 ∧
    (GraphManager.build_graph scene99).1.nodes.length = 3 := by
  decide

/-- C1 (amended): `build_graph` raises no error on a relation whose
`object_id` matches no object: networkx `add_edge` silently creates the
missing endpoint, so the build of the 2-object scene with a relation to
`99` finishes and yields a graph with nodes `1`, `2`, `99` — node `99`
with an empty attribute dict — and the dangling edge `2-99`. -/
theorem build_graph_dangling_completes :
    (GraphManager.build_graph scene99).1.nodes =
      [(1, [("color", AttrValue.str "red"), ("name", AttrValue.str "cup")]),
       (2, [("color", AttrValue.str "brown"), ("name", AttrValue.str "table")]),
       (99, [])] ∧
    (GraphManager.build_graph scene99).1.edges =
      [⟨2, 99, [("relation_type", AttrValue.str "next to"),
                ("description", AttrValue.str "the table is next to a ghost")]⟩] := by
  decide

/-- C2 (counterexample): the claim says two objects sharing an id make
`build_graph` fail with `DuplicateNodeError` and abort.  In fact the build
completes and returns a single-node graph. -/
theorem build_graph_duplicate_returns_graph :
    (GraphManager.build_graph sceneDup).1.nodes.length = 1 ∧
    (GraphManager.build_graph sceneDup).2.objects.length = 2 := by
  decide

/-- C2 (amended): on duplicate object ids `build_graph` does not fail:
networkx `add_node` merges the later object's attributes (and `name`) into
the existing node, so the graph holds one node per distinct id — node ids
are always duplicate-free — and in the two-objects-with-id-1 scene the
single node carries the second object's attributes. -/
theorem build_graph_duplicate_merges :
    (∀ data : Scene, (nodeIds (GraphManager.build_graph data).1).Nodup) ∧
    (GraphManager.build_graph sceneDup).1.nodes =
      [(1, [("color", AttrValue.str "brown"), ("name", AttrValue.str "table")])] :=
  ⟨build_graph_nodup, by decide⟩

/-- C5 (counterexample): the claim says the input scene's objects,
including each object's attributes mapping, are unchanged after the build.
In fact `add_object` mutates each object's `attributes` dict in place
(`node_attributes = obj.get('attributes', {})` aliases it and
`update({'name': ...})` writes through the alias), so after building the
cup/table scene the attribute mappings differ from the input's. -/
theorem build_graph_mutates_scene :
    (GraphManager.build_graph sceneCT).2.objects.map SceneObject.attributes ≠
      sceneCT.objects.map SceneObject.attributes := by
  decide

/-- C5 (amended): the build's only side effect on the scene is that every
object's `attributes` dict gains (or overwrites) the key `name` with the
object's name; ids, names, bounding boxes and relations are untouched. -/
theorem build_graph_scene_effect (data : Scene) :
    (GraphManager.build_graph data).2 = ⟨data.objects.map objMut⟩ := by
  rw [show (GraphManager.build_graph data).2 =
      Scene.mk ((data.objects.foldl GraphManager.build_step (Graph.empty, [])).2) from rfl]
  rw [build_foldl_snd]
  simp

/-- C6 (counterexample): the claim says every operation after the build
leaves the graph model unchanged.  `draw_graph_on_image` does not: its
"Building the graph" loop re-adds every relation edge with a `label`
attribute, so the built cup/table graph differs after the call. -/
theorem draw_graph_on_image_changes_graph :
    drawGraphUpdate (GraphManager.build_graph sceneCT2).1 sceneCT2 ≠
      (GraphManager.build_graph sceneCT2).1 := by
  decide

/-- C6 (amended): `calculate_positions`, `create_edge_trace`,
`create_node_trace` and `find_objects_by_attribute` only read
`self.graph`, but `draw_graph_on_image` mutates it: after the call, for
every relation of every scene object the edge joining the object to the
relation's target exists and carries a `label` attribute. -/
theorem draw_graph_on_image_adds_label (g : Graph) (data : Scene) (obj : SceneObject)
    (rel : Relation) (hobj : obj ∈ data.objects) (hrel : rel ∈ obj.relations) :
    HasLabel (drawGraphUpdate g data) obj.id rel.object_id := by
  rw [drawGraphUpdate_eq]
  obtain ⟨l1, l2, hsplit⟩ := List.append_of_mem hobj
  rw [hsplit, List.foldl_append, List.foldl_cons]
  have h1 : HasLabel (dstep (List.foldl dstep g l1) obj) obj.id rel.object_id := by
    unfold dstep
    obtain ⟨r1, r2, hrsplit⟩ := List.append_of_mem hrel
    rw [hrsplit, List.foldl_append, List.foldl_cons]
    refine foldl_preserve (P := fun g2 => HasLabel g2 obj.id rel.object_id) ?_ r2 _ ?_
    · intro g2 rel2 hg2
      exact hasLabel_add_edge_label g2 obj.id rel2.object_id obj.id rel.object_id _ hg2
    · exact hasLabel_add_edge_self _ obj.id rel.object_id _
  refine foldl_preserve (P := fun g2 => HasLabel g2 obj.id rel.object_id) ?_ l2 _ h1
  intro g2 o hg2
  exact hasLabel_dstep g2 o obj.id rel.object_id hg2

/-- C6 (witness): the amended statement at the built cup/table graph and
its one relation. -/
theorem draw_graph_on_image_adds_label_witness :
    HasLabel (drawGraphUpdate (GraphManager.build_graph sceneCT2).1 sceneCT2) 1 2 :=
  draw_graph_on_image_adds_label (GraphManager.build_graph sceneCT2).1 sceneCT2
    { cupObj with relations := [relOnTopOf] } relOnTopOf
    (List.Mem.head _) (List.Mem.head _)

/-- C4: the claim says every node marker carries hover text listing that
node's own attributes.  In the code the loop variable `hover_text` is a
plain string reassigned on every iteration and passed once to the trace,
so the emitted trace carries the marker texts `["cup", "table"]` but a
single hover string — the LAST node's listing — while the cup node's own
listing (`hoverTextOf` of its attributes) is a different string. -/
theorem create_node_trace_shared_hover :
    GraphManager.create_node_trace (GraphManager.build_graph sceneCT).1 (fun _ => (0, 0)) =
      some ⟨[0, 0], [0, 0], ["cup", "table"], "object: table<br>color: brown"⟩ ∧
    hoverTextOf [("color", AttrValue.str "red"), ("name", AttrValue.str "cup")]
      (AttrValue.str "cup") = "object: cup<br>color: red" ∧
    ("object: table<br>color: brown" : String) ≠ "object: cup<br>color: red" := by
  refine ⟨rfl, rfl, by decide⟩

/-- C7: for every scene (well-formed or not — networkx creates missing
endpoints), both endpoints of every edge of the built graph are members of
the graph's node set. -/
theorem build_graph_edge_endpoints (data : Scene) (e : Edge)
    (he : e ∈ (GraphManager.build_graph data).1.edges) :
    hasNode (GraphManager.build_graph data).1 e.u = true ∧
    hasNode (GraphManager.build_graph data).1 e.v = true :=
  build_graph_edgesClosed data e he

/-- C7 (witness): the endpoints of the one edge of the built cup/table
graph are nodes. -/
theorem build_graph_edge_endpoints_witness :
    hasNode (GraphManager.build_graph sceneCT2).1 1 = true ∧
    hasNode (GraphManager.build_graph sceneCT2).1 2 = true :=
  build_graph_edge_endpoints sceneCT2
    ⟨1, 2, [("relation_type", AttrValue.str "on top of"),
            ("description", AttrValue.str "the cup is on the table")]⟩
    (by decide)

/-- C8: `find_objects_by_attribute` returns exactly the ids of nodes whose
stored attribute equals the queried value (exact match), and returns the
empty list — not an error — precisely when no node's stored attribute
equals the value. -/
theorem find_objects_by_attribute_correct (g : Graph) (k : String) (v : AttrValue) :
    (∀ i : Int, i ∈ GraphManager.find_objects_by_attribute g k v ↔
      ∃ d, (i, d) ∈ g.nodes ∧ dictGet k d = some v) ∧
    (GraphManager.find_objects_by_attribute g k v = [] ↔
      ∀ p ∈ g.nodes, dictGet k p.2 ≠ some v) := by
  constructor
  · intro i
    unfold GraphManager.find_objects_by_attribute
    simp only [List.mem_map, List.mem_filter, beq_iff_eq]
    constructor
    · rintro ⟨p, ⟨hp, hpv⟩, rfl⟩
      exact ⟨p.2, hp, hpv⟩
    · rintro ⟨d, hd, hdv⟩
      exact ⟨(i, d), ⟨hd, hdv⟩, rfl⟩
  · unfold GraphManager.find_objects_by_attribute
    rw [List.map_eq_nil_iff, List.filter_eq_nil_iff]
    constructor
    · intro h p hp hv
      have := h p hp
      rw [hv] at this
      simp at this
    · intro h p hp
      simpa using h p hp

/-- C9: the rectangle `draw_graph_on_image` emits for a scene object is
its normalized bounding box scaled by the image dimensions: corner at
`(x_min*width, y_min*height)` and opposite corner at
`(x_max*width, y_max*height)`; on a 1000 by 800 image, the box
(0.1, 0.2, 0.4, 0.6) spans pixels (100, 160) to (400, 480). -/
theorem overlay_rectangle_correct :
    (∀ (bbox : BoundingBox) (width height : Rat),
        (overlayRect bbox width height).x = bbox.x_min * width ∧
        (overlayRect bbox width height).y = bbox.y_min * height ∧
        (overlayRect bbox width height).x + (overlayRect bbox width height).w =
          bbox.x_max * width ∧
        (overlayRect bbox width height).y + (overlayRect bbox width height).h =
          bbox.y_max * height) ∧
    ((overlayRect ⟨1/10, 2/10, 4/10, 6/10⟩ 1000 800).x = 100 ∧
     (overlayRect ⟨1/10, 2/10, 4/10, 6/10⟩ 1000 800).y = 160 ∧
     (overlayRect ⟨1/10, 2/10, 4/10, 6/10⟩ 1000 800).x +
       (overlayRect ⟨1/10, 2/10, 4/10, 6/10⟩ 1000 800).w = 400 ∧
     (overlayRect ⟨1/10, 2/10, 4/10, 6/10⟩ 1000 800).y +
       (overlayRect ⟨1/10, 2/10, 4/10, 6/10⟩ 1000 800).h = 480) := by
  constructor
  · intro bbox width height
    unfold overlayRect
    refine ⟨rfl, rfl, by ring, by ring⟩
  · unfold overlayRect
    norm_num

/-- C10: a relation targeting an id no scene object declares still builds:
the graph gains a node keyed by that id whose attribute dict is empty — in
particular it has no `name` attribute. -/
theorem build_graph_dangling_node_empty (data : Scene) (t : Int)
    (hrel : ∃ obj ∈ data.objects, ∃ r ∈ obj.relations, r.object_id = t)
    (hid : ∀ obj ∈ data.objects, obj.id ≠ t) :
    hasNode (GraphManager.build_graph data).1 t = true ∧
    nodeAttrs (GraphManager.build_graph data).1 t = some [] ∧
    (nodeAttrs (GraphManager.build_graph data).1 t).bind (fun d => dictGet "name" d) = none := by
  have h := build_graph_dangling_general data t hrel hid
  exact ⟨hasNode_of_nodeAttrs _ t [] h, h, by rw [h]; rfl⟩

/-- C10 (witness): the dangling-reference scene at id 99. -/
theorem build_graph_dangling_node_empty_witness :
    hasNode (GraphManager.build_graph scene99).1 99 = true ∧
    nodeAttrs (GraphManager.build_graph scene99).1 99 = some [] ∧
    (nodeAttrs (GraphManager.build_graph scene99).1 99).bind (fun d => dictGet "name" d) = none :=
  build_graph_dangling_node_empty scene99 99
    ⟨{ tableObj with relations := [relToGhost] }, List.Mem.tail _ (List.Mem.head _),
     relToGhost, List.Mem.head _, rfl⟩
    (by decide)
